import Mathlib

/-!
Shallow embedding of `src/ImmuneBuilder/ABodyBuilder2.py`.

Coordinates are modelled exactly over `ℚ` (the Python code computes with
double-precision tensors; the claims under study are about which values are
combined and in which order, not about rounding).  External collaborators that
live outside `src/` (`find_alignment_transform`, `to_pdb`, `refine`,
`number_sequences`, `get_encoding`, `add_errors_as_bfactors`) are modelled as
parameters or as abstract trace events, as documented at each definition.
-/

/-- A 3D point (one row of a `(…, 3)` tensor). -/
abbrev Vec3 : Type := ℚ × ℚ × ℚ

/-- A 3×3 matrix given by rows (one member's rotation from
`find_alignment_transform`). -/
abbrev Mat3 : Type := Vec3 × Vec3 × Vec3

/-- All atoms of one residue, in the fixed layout used by the model
(`x[residue, atom, :]`). -/
abbrev Residue : Type := List Vec3

/-- One ensemble member's full atom tensor: residues × atoms-per-residue × 3. -/
abbrev MemberAtoms : Type := List Residue

/-- Per chain, the ordered list of (position label, residue letter) pairs
returned by the numbering step (`numbered_sequences`). -/
abbrev NumberedSeqs : Type := List (String × List (ℕ × Char))

def vzero : Vec3 := (0, 0, 0)

def vadd (p q : Vec3) : Vec3 := (p.1 + q.1, p.2.1 + q.2.1, p.2.2 + q.2.2)

def vsub (p q : Vec3) : Vec3 := (p.1 - q.1, p.2.1 - q.2.1, p.2.2 - q.2.2)

def vsmul (c : ℚ) (p : Vec3) : Vec3 := (c * p.1, c * p.2.1, c * p.2.2)

/-- Row-vector times matrix, i.e. torch's `v @ R` for a `(3,)` vector and a
`(3,3)` matrix: `(v @ R) j = Σ i, v i * R i j`. -/
def rowMul (v : Vec3) (R : Mat3) : Vec3 :=
  vadd (vsmul v.1 R.1) (vadd (vsmul v.2.1 R.2.1) (vsmul v.2.2 R.2.2))

/-- Squared Euclidean norm: torch's `x.square().sum(-1)` on a `(3,)` row. -/
def sqnorm (p : Vec3) : ℚ := p.1 * p.1 + p.2.1 * p.2.1 + p.2.2 * p.2.2

/-- The backbone trace of one member: `x[:, 0]`, atom 0 of every residue. -/
def trace_of (m : MemberAtoms) : List Vec3 := m.map (fun res => res.headD vzero)

/-- Mean over the member dimension of a members × residues list of points:
torch's `aligned_traces.mean(0)`.  All rows are assumed to have equal length
(enforced by the stacking guard in `Antibody.init`). -/
def meanAcross (rows : List (List Vec3)) : List Vec3 :=
  let n := (rows.headD []).length
  (rows.foldr (fun row acc => List.zipWith vadd row acc) (List.replicate n vzero)).map
    (vsmul (1 / (rows.length : ℚ)))

/-- Mean over the member dimension of a members × residues list of scalars:
torch's `error_estimates.mean(0)`. -/
def colMeans (rows : List (List ℚ)) : List ℚ :=
  let n := (rows.headD []).length
  (rows.foldr (fun row acc => List.zipWith (· + ·) row acc) (List.replicate n 0)).map
    (fun x => x / (rows.length : ℚ))

/-- Mean over the last dimension: torch's `.mean(-1)` on one member's row. -/
def rowMean (es : List ℚ) : ℚ := es.sum / (es.length : ℚ)

/-- The comparison used to model `torch.Tensor.argsort()` on the per-member
mean errors: ascending by value.  The source calls `argsort` with its default
`stable=False`, whose contract leaves the relative order of equal values
unspecified; this model fixes one concrete tie policy (original index order)
so that the sort is a function.  No theorem below about the code relies on
this tie policy: the properties proved of the ranking (permutation of the
member indices, pairwise-ascending mean error, label injectivity) hold for
every tie resolution, and the sorts in the concrete counterexamples are
tie-free or all-tied on two elements. -/
def rankLe (xs : List ℚ) (i j : ℕ) : Prop :=
  xs.getD i 0 < xs.getD j 0 ∨ (xs.getD i 0 = xs.getD j 0 ∧ i ≤ j)

instance rankLe.decRel (xs : List ℚ) : DecidableRel (rankLe xs) := fun i j => by
  unfold rankLe; infer_instance

/-- Model of `tensor.argsort()` (line 38): the indices `0 .. xs.length - 1`
sorted ascending by their value in `xs`, ties by index. -/
def argsort (xs : List ℚ) : List ℕ :=
  List.insertionSort (rankLe xs) (List.range xs.length)

/-- The `Antibody` aggregate (class `Antibody`), with the fields assigned in
`__init__` (lines 28–38). -/
structure Antibody : Type where
  numbered_sequences : NumberedSeqs
  atoms : List MemberAtoms
  encodings : List ℕ
  R : List Mat3
  t : List Vec3
  aligned_traces : List (List Vec3)
  error_estimates : List (List ℚ)
  ranking : List ℕ
deriving DecidableEq

/-- One member's trace after alignment: `(traces - t) @ R` restricted to
member `m` (line 36). -/
def alignMember (tr : List Vec3) (tm : Vec3) (Rm : Mat3) : List Vec3 :=
  tr.map (fun p => rowMul (vsub p tm) Rm)

/-- `Antibody.__init__` (lines 28–38).  `fat` stands for the external
`find_alignment_transform` collaborator (`ImmuneBuilder.util`, not under
`src/`); per its contract it returns one rotation and one translation per
member.  The `none` branches model the `RuntimeError`s torch raises when
`torch.stack` is applied to an empty list or to traces of unequal length, or
when the collaborator output does not match the member count in shape. -/
def Antibody.init (fat : List (List Vec3) → List Mat3 × List Vec3)
    (ns : NumberedSeqs) (predictions : List (MemberAtoms × ℕ)) : Option Antibody :=
  let atoms := predictions.map Prod.fst
  let traces := atoms.map trace_of
  let n0 := (traces.headD []).length
  if traces.isEmpty then none
  else if ¬ (traces.all (fun tr => tr.length = n0)) then none
  else
    let Rt := fat traces
    if Rt.1.length = traces.length ∧ Rt.2.length = traces.length then
      let aligned := List.zipWith (fun trtm Rm => alignMember trtm.1 trtm.2 Rm)
        (traces.zip Rt.2) Rt.1
      let errs := aligned.map
        (fun row => List.zipWith (fun p q => sqnorm (vsub p q)) row (meanAcross aligned))
      some
        { numbered_sequences := ns
          atoms := atoms
          encodings := predictions.map Prod.snd
          R := Rt.1
          t := Rt.2
          aligned_traces := aligned
          error_estimates := errs
          ranking := argsort (errs.map rowMean) }
    else none

/-- `self.error_estimates.mean(0)`: the per-residue mean error across members
(saved raw in `save_all`, square-rooted for the b-factor annotation). -/
def Antibody.meanErrors (ab : Antibody) : List ℚ := colMeans ab.error_estimates

/-- The fixed provenance header line (line 25). -/
def header : String :=
  "REMARK  ANTIBODY STRUCTURE MODELLED USING ABODYBUILDER2                         \n"

/-- File-system / collaborator events emitted by the output stage.  `write`
records a `save_single_unrefined` call: the target path, the member index
selected, and the de-transformed full atom set serialized by the external
`to_pdb` collaborator.  `refineCall` records one invocation of the external
`refine` collaborator with its reported success.  `bfactors` records
`add_errors_as_bfactors`: the collaborator receives the pointwise square root
of the recorded array `sqOfArr` (the square root itself is irrational in
general, so the event stores the array being rooted) together with the header
lines.  `npsave` records `np.save` of the raw array (numpy appends `.npy` to
the recorded path). -/
inductive Ev : Type where
  | write (filename : String) (index : ℕ) (content : List Residue)
  | refineCall (infile outfile : String) (success : Bool)
  | warn (msg : String)
  | npsave (filename : String) (arr : List ℚ)
  | bfactors (filename : String) (sqOfArr : List ℚ) (new_txt : List String)
  | mkdirs (dirname : String)
deriving DecidableEq

def mId : Mat3 := ((1, 0, 0), (0, 1, 0), (0, 0, 1))

def mzero : Mat3 := (vzero, vzero, vzero)

/-- `Antibody.save_single_unrefined` (lines 41–46): de-transform member
`index`'s full atom set with that member's alignment transform and write the
`to_pdb` serialization to `filename`.  Pure state-passing form: the method
assigns no attribute of `self`, so it returns `self` unchanged together with
the write event. -/
def Antibody.save_single_unrefined (ab : Antibody) (filename : String)
    (index : ℕ := 0) : Antibody × Ev :=
  let tm := ab.t.getD index vzero
  let Rm := ab.R.getD index mzero
  let content := (ab.atoms.getD index []).map (fun res => res.map (fun p => rowMul (vsub p tm) Rm))
  (ab, Ev.write filename index content)

/-- The retry loop of `Antibody.save` (lines 71–80), iterating over the list
of remaining loop indices `i`.  `k` counts refinement invocations so far; the
oracle gives the success of the `k`-th invocation of the external `refine`
collaborator.  Returns the emitted events, the final invocation count, and the
final value of the local `success` flag (`false` when the loop ends without a
`break`; the `[]` base case is only reached from an empty ensemble, where the
flag stays unbound — handled by the caller). -/
def saveLoopGo (ab : Antibody) (oracle : ℕ → Bool) (filename : String) :
    List ℕ → ℕ → List Ev × ℕ × Bool
  | [], k => ([], k, false)
  | i :: rest, k =>
    let idx := ab.ranking.indexOf i
    let e1 := (ab.save_single_unrefined filename idx).2
    if oracle k then ([e1, Ev.refineCall filename filename true], k + 1, true)
    else
      let e2 := (ab.save_single_unrefined filename idx).2
      if oracle (k + 1) then
        ([e1, Ev.refineCall filename filename false, e2, Ev.refineCall filename filename true],
          k + 2, true)
      else
        let rec1 := saveLoopGo ab oracle filename rest (k + 2)
        (e1 :: Ev.refineCall filename filename false :: e2 ::
          Ev.refineCall filename filename false :: rec1.1, rec1.2)

/-- Outcome of `Antibody.save`: either the ordered event trace, or the
`UnboundLocalError` raised at line 82 when `success` was never assigned
(empty ensemble), with the events emitted before the raise. -/
inductive SaveOutcome : Type where
  | ok (trace : List Ev)
  | unboundLocal (trace : List Ev)
deriving DecidableEq

/-- `Antibody.save` (lines 67–84).  `oracle k` is the success reported by the
`k`-th invocation of the external `refine` collaborator during this call.
Returns `self` (unmodified — the method assigns no attribute) and the
outcome. -/
def Antibody.save (ab : Antibody) (oracle : ℕ → Bool) (fn : Option String := none) :
    Antibody × SaveOutcome :=
  let filename := fn.getD "ABodyBuilder2_output.pdb"
  if ab.atoms.isEmpty then (ab, SaveOutcome.unboundLocal [])
  else
    let res := saveLoopGo ab oracle filename (List.range ab.atoms.length) 0
    let warnEvs :=
      if res.2.2 then []
      else [Ev.warn ("FAILED TO REFINE " ++ filename ++ ".\nSaving anyways.")]
    (ab, SaveOutcome.ok (res.1 ++ warnEvs ++ [Ev.bfactors filename ab.meanErrors [header]]))

/-- `Antibody.save_all` (lines 49–64).  One unrefined write per member (member
`i` to the file labeled with `i`'s rank position), the raw per-residue mean
error array, a single refinement of the rank-0 file into the final filename,
and the b-factor annotation of the final file regardless of refinement
outcome. -/
def Antibody.save_all (ab : Antibody) (oracle : ℕ → Bool)
    (dn : Option String := none) (fn : Option String := none) : Antibody × List Ev :=
  let dirname := dn.getD "ABodyBuilder2_output"
  let filename := fn.getD "final_model.pdb"
  let finalFilename := dirname ++ "/" ++ filename
  let writes := (List.range ab.atoms.length).map (fun i =>
    (ab.save_single_unrefined
      (dirname ++ "/rank" ++ toString (ab.ranking.indexOf i) ++ "_unrefined.pdb") i).2)
  (ab, Ev.mkdirs dirname :: writes ++
    [Ev.npsave (dirname ++ "/error_estimates") ab.meanErrors,
     Ev.refineCall (dirname ++ "/rank0_unrefined.pdb") finalFilename (oracle 0),
     Ev.bfactors finalFilename ab.meanErrors [header]])

/-- Collaborator-invocation events of the prediction stage. -/
inductive PEv : Type where
  | numbering
  | encoding
  | inference (model_file : String)
deriving DecidableEq

/-- Modelled from the spec: `number_sequences` (`ImmuneBuilder.sequence_checks`,
not under `src/`).  Per §4.4/§7, a missing required chain key ("H" or "L") is
a fatal input error reported to the caller before any collaborator is invoked
(no partial work); otherwise each chain's sequence is numbered into an ordered
list of (position label, residue) pairs preserving residue count and identity
(§6), and the external numbering collaborator is invoked (one `numbering`
event). -/
def number_sequences (sd : List (String × String)) :
    Except String (NumberedSeqs × List PEv) :=
  if ("H" ∈ sd.map Prod.fst) ∧ ("L" ∈ sd.map Prod.fst) then
    Except.ok
      (sd.map (fun cs => (cs.1, cs.2.toList.enum.map (fun p => (p.1 + 1, p.2)))),
       [PEv.numbering])
  else Except.error "Missing required chain"

/-- Python `dict[key]` lookup on the chain → sequence mapping (only reached
after `number_sequences` validated the required keys). -/
def lookupSeq (sd : List (String × String)) (c : String) : String :=
  ((sd.find? (fun p => p.1 == c)).map Prod.snd).getD ""

/-- The `ABodyBuilder2` predictor: the loaded models, as a list of
(model_file, model collaborator) pairs; a model maps the shared encoding and
the concatenated sequence to one raw prediction (atom tensor and per-residue
encoding), cf. §6. -/
structure ABodyBuilder2 : Type where
  models : List (String × (ℕ → String → MemberAtoms × ℕ))

/-- `ABodyBuilder2.predict` (lines 113–126).  `genc` stands for the external
`get_encoding` collaborator and `fat` for `find_alignment_transform` (both in
`ImmuneBuilder.util`, not under `src/`).  Returns the result together with the
ordered list of collaborator invocations. -/
def ABodyBuilder2.predict (self : ABodyBuilder2)
    (genc : List (String × String) → ℕ)
    (fat : List (List Vec3) → List Mat3 × List Vec3)
    (sequence_dict : List (String × String)) :
    Except String Antibody × List PEv :=
  match number_sequences sequence_dict with
  | Except.error e => (Except.error e, [])
  | Except.ok nsEvs =>
    let ns := nsEvs.1
    let sd2 := ns.map (fun ch => (ch.1, String.mk (ch.2.map Prod.snd)))
    let encoding := genc sd2
    let full_seq := lookupSeq sd2 "H" ++ lookupSeq sd2 "L"
    let outputs := self.models.map (fun m => m.2 encoding full_seq)
    let evs2 := nsEvs.2 ++ [PEv.encoding] ++ self.models.map (fun m => PEv.inference m.1)
    match Antibody.init fat ns outputs with
    | some ab => (Except.ok ab, evs2)
    | none => (Except.error "stack expects a non-empty TensorList", evs2)

/-- Predicate selecting refinement-collaborator events. -/
def Ev.isRefine : Ev → Bool
  | Ev.refineCall _ _ _ => true
  | _ => false

/-- Predicate selecting unrefined-structure write events. -/
def Ev.isWrite : Ev → Bool
  | Ev.write _ _ _ => true
  | _ => false

/-- Number of refinement-collaborator invocations in a trace. -/
def countRefines (evs : List Ev) : ℕ := (evs.filter Ev.isRefine).length

/-- The member indices written by the unrefined-structure writes of a trace,
in order. -/
def writeIndices (evs : List Ev) : List ℕ :=
  evs.filterMap (fun e => match e with | Ev.write _ i _ => some i | _ => none)

/-- The events of a save outcome (trace before the raise, for the error
case). -/
def SaveOutcome.trace : SaveOutcome → List Ev
  | SaveOutcome.ok tr => tr
  | SaveOutcome.unboundLocal tr => tr

/-- Did `Antibody.save` complete without raising? -/
def SaveOutcome.isOk : SaveOutcome → Bool
  | SaveOutcome.ok _ => true
  | SaveOutcome.unboundLocal _ => false

instance : Inhabited Antibody := ⟨⟨[], [], [], [], [], [], [], []⟩⟩

/-- A concrete, well-formed alignment-collaborator output: the identity
rotation and zero translation for every member (a legal value of
`find_alignment_transform`, used for the concrete scenarios below). -/
def idFat (traces : List (List Vec3)) : List Mat3 × List Vec3 :=
  (List.replicate traces.length mId, List.replicate traces.length vzero)

/-- A two-chain numbered-sequence value for the concrete scenarios. -/
def chainNs : NumberedSeqs := [("H", [(1, 'E')]), ("L", [(1, 'D')])]

/-- A 5-residue member (one atom per residue). -/
def twinMember : MemberAtoms :=
  [[(0, 0, 0)], [(1, 0, 0)], [(2, 0, 0)], [(3, 0, 0)], [(4, 0, 0)]]

/-- The spec's §8 scenario: two ensemble members with identical coordinates
for a 5-residue chain. -/
def twinAb : Antibody :=
  (Antibody.init idFat chainNs [(twinMember, 0), (twinMember, 1)]).getD default

/-- A single-residue member at x-coordinate `x`. -/
def triMember (x : ℚ) : MemberAtoms := [[(x, 0, 0)]]

/-- A three-member ensemble whose per-member mean errors are 25, 1, 16, so
the ranking is the 3-cycle `[1, 2, 0]`. -/
def triAb : Antibody :=
  (Antibody.init idFat chainNs [(triMember 9, 0), (triMember 3, 1), (triMember 0, 2)]).getD default

/-- Two members whose backbone traces (atom 0) coincide but whose second
atoms differ: the trace-based error is zero while any full-atom-set error is
not. -/
def c8Ab : Antibody :=
  (Antibody.init idFat chainNs
    [([[(0, 0, 0), (0, 0, 0)]], 0), ([[(0, 0, 0), (1, 0, 0)]], 1)]).getD default

/-- Modelled from the spec's words (§4.2), for comparison only: the
per-residue, per-member error computed "after applying each member's
transform to its *full* atom set, not just the backbone trace used for
fitting" — the squared distance of every aligned atom from its cross-member
centroid, accumulated per residue.  This is what claim C8 says
`error_estimates` is; the code's `error_estimates` uses the backbone trace
only. -/
def specFullAtomError (atoms : List MemberAtoms) (Rl : List Mat3) (tl : List Vec3) :
    List (List ℚ) :=
  let alignedFull : List MemberAtoms := (List.range atoms.length).map (fun m =>
    (atoms.getD m []).map (fun res => res.map (fun p =>
      rowMul (vsub p (tl.getD m vzero)) (Rl.getD m mzero))))
  alignedFull.map (fun mem =>
    (List.range mem.length).map (fun r =>
      (List.zipWith (fun p q => sqnorm (vsub p q)) (mem.getD r [])
        (meanAcross (alignedFull.map (fun mem2 => mem2.getD r [])))).sum))

/-- An `Antibody` record with an empty member list (the state `save` would
see if the predictions list were empty). -/
def emptyAb : Antibody := ⟨[], [], [], [], [], [], [], []⟩

/-- The (target path, member index) pairs of the unrefined-structure writes
of a trace, in order. -/
def writePairs (evs : List Ev) : List (String × ℕ) :=
  evs.filterMap (fun e => match e with | Ev.write f i _ => some (f, i) | _ => none)

lemma rankLe_total (xs : List ℚ) (i j : ℕ) : rankLe xs i j ∨ rankLe xs j i := by
  rcases lt_trichotomy (xs.getD i 0) (xs.getD j 0) with h | h | h
  · exact Or.inl (Or.inl h)
  · rcases Nat.le_total i j with hij | hij
    · exact Or.inl (Or.inr ⟨h, hij⟩)
    · exact Or.inr (Or.inr ⟨h.symm, hij⟩)
  · exact Or.inr (Or.inl h)

lemma rankLe_trans (xs : List ℚ) (i j k : ℕ) (h1 : rankLe xs i j) (h2 : rankLe xs j k) :
    rankLe xs i k := by
  rcases h1 with h1 | ⟨h1, h1'⟩ <;> rcases h2 with h2 | ⟨h2, h2'⟩
  · exact Or.inl (h1.trans h2)
  · exact Or.inl (h2 ▸ h1)
  · exact Or.inl (h1 ▸ h2)
  · exact Or.inr ⟨h1.trans h2, h1'.trans h2'⟩

instance rankLe.isTotal (xs : List ℚ) : IsTotal ℕ (rankLe xs) := ⟨rankLe_total xs⟩

instance rankLe.isTrans (xs : List ℚ) : IsTrans ℕ (rankLe xs) :=
  ⟨fun i j k => rankLe_trans xs i j k⟩

lemma argsort_perm (xs : List ℚ) : (argsort xs).Perm (List.range xs.length) :=
  List.perm_insertionSort _ _

lemma argsort_sorted (xs : List ℚ) : List.Sorted (rankLe xs) (argsort xs) :=
  List.sorted_insertionSort _ _

lemma argsort_nodup (xs : List ℚ) : (argsort xs).Nodup :=
  (argsort_perm xs).nodup_iff.mpr (List.nodup_range _)

lemma argsort_pairwise_le (xs : List ℚ) :
    List.Pairwise (fun i j => xs.getD i 0 ≤ xs.getD j 0) (argsort xs) :=
  (argsort_sorted xs).imp (fun h => by
    rcases h with h | ⟨h, _⟩
    · exact le_of_lt h
    · exact le_of_eq h)

lemma countRefines_cons_write (f : String) (i : ℕ) (c : List Residue) (evs : List Ev) :
    countRefines (Ev.write f i c :: evs) = countRefines evs := by
  simp [countRefines, Ev.isRefine]

lemma countRefines_cons_refine (a b : String) (s : Bool) (evs : List Ev) :
    countRefines (Ev.refineCall a b s :: evs) = countRefines evs + 1 := by
  simp [countRefines, Ev.isRefine, List.filter_cons]

lemma countRefines_append (l1 l2 : List Ev) :
    countRefines (l1 ++ l2) = countRefines l1 + countRefines l2 := by
  simp [countRefines, List.filter_append]

lemma writeIndices_append (l1 l2 : List Ev) :
    writeIndices (l1 ++ l2) = writeIndices l1 ++ writeIndices l2 := by
  simp [writeIndices]

lemma Antibody.init_spec {fat : List (List Vec3) → List Mat3 × List Vec3}
    {ns : NumberedSeqs} {preds : List (MemberAtoms × ℕ)} {ab : Antibody}
    (h : Antibody.init fat ns preds = some ab) :
    ab.atoms = preds.map Prod.fst ∧
    ab.aligned_traces = List.zipWith (fun trtm Rm => alignMember trtm.1 trtm.2 Rm)
      ((ab.atoms.map trace_of).zip ab.t) ab.R ∧
    ab.error_estimates = ab.aligned_traces.map (fun row =>
      List.zipWith (fun p q => sqnorm (vsub p q)) row (meanAcross ab.aligned_traces)) ∧
    ab.ranking = argsort (ab.error_estimates.map rowMean) ∧
    ab.error_estimates.length = ab.atoms.length ∧
    ab.atoms ≠ [] := by
  simp only [Antibody.init] at h
  split_ifs at h with h1 h2 h3
  obtain rfl := Option.some.inj h
  refine ⟨rfl, rfl, rfl, rfl, ?_, ?_⟩
  · dsimp only
    simp only [List.length_map, List.length_zipWith, List.length_zip] at h3 ⊢
    omega
  · dsimp only
    intro hc
    apply h1
    simp [hc]

lemma saveLoopGo_head (ab : Antibody) (oracle : ℕ → Bool) (f : String) (i : ℕ)
    (rest : List ℕ) (k : ℕ) :
    ((saveLoopGo ab oracle f (i :: rest) k).1).head? =
      some (ab.save_single_unrefined f (ab.ranking.indexOf i)).2 := by
  simp only [saveLoopGo]
  split_ifs <;> rfl

lemma writeIndices_nil : writeIndices [] = [] := rfl

lemma writeIndices_cons_write (f : String) (i : ℕ) (c : List Residue) (evs : List Ev) :
    writeIndices (Ev.write f i c :: evs) = i :: writeIndices evs := by
  simp [writeIndices]

lemma writeIndices_cons_refine (a b : String) (s : Bool) (evs : List Ev) :
    writeIndices (Ev.refineCall a b s :: evs) = writeIndices evs := by
  simp [writeIndices]

lemma saveLoopGo_count (ab : Antibody) (oracle : ℕ → Bool) (f : String) :
    ∀ (is : List ℕ) (k : ℕ), countRefines (saveLoopGo ab oracle f is k).1 ≤ 2 * is.length := by
  intro is
  induction is with
  | nil => intro k; simp [saveLoopGo, countRefines]
  | cons i rest ih =>
    intro k
    simp only [saveLoopGo, Antibody.save_single_unrefined]
    split_ifs
    · simp only [countRefines, Ev.isRefine, List.filter_cons]
      simp
      omega
    · simp only [countRefines, Ev.isRefine, List.filter_cons]
      simp
    · have hih := ih (k + 2)
      simp only [countRefines, Ev.isRefine, List.filter_cons] at hih ⊢
      simp at hih ⊢
      omega

lemma saveLoopGo_writes (ab : Antibody) (oracle : ℕ → Bool) (f : String) :
    ∀ (is : List ℕ) (k : ℕ) (x : ℕ), x ∈ writeIndices (saveLoopGo ab oracle f is k).1 →
      ∃ i ∈ is, x = ab.ranking.indexOf i := by
  intro is
  induction is with
  | nil => intro k x hx; simp [saveLoopGo, writeIndices] at hx
  | cons i rest ih =>
    intro k x hx
    simp only [saveLoopGo, Antibody.save_single_unrefined] at hx
    split_ifs at hx
    · exact ⟨i, by simp, by
        simpa [writeIndices_cons_write, writeIndices_cons_refine, writeIndices_nil] using hx⟩
    · have hx2 : x = ab.ranking.indexOf i := by
        simpa [writeIndices_cons_write, writeIndices_cons_refine, writeIndices_nil] using hx
      exact ⟨i, by simp, hx2⟩
    · simp only [writeIndices_cons_write, writeIndices_cons_refine, List.mem_cons] at hx
      rcases hx with hx | hx | hx
      · exact ⟨i, by simp, hx⟩
      · exact ⟨i, by simp, hx⟩
      · obtain ⟨j, hj, hjx⟩ := ih (k + 2) x hx
        exact ⟨j, by simp [hj], hjx⟩

lemma saveLoopGo_allFalse (ab : Antibody) (oracle : ℕ → Bool) (f : String)
    (hf : ∀ k, oracle k = false) : ∀ (is : List ℕ) (k : ℕ),
    (saveLoopGo ab oracle f is k).2.2 = false := by
  intro is
  induction is with
  | nil => intro k; simp [saveLoopGo]
  | cons i rest ih =>
    intro k
    simp only [saveLoopGo, hf]
    exact ih (k + 2)

lemma save_eq (ab : Antibody) (oracle : ℕ → Bool) (fn : Option String)
    (h : ab.atoms ≠ []) :
    ab.save oracle fn = (ab, SaveOutcome.ok
      ((saveLoopGo ab oracle (fn.getD "ABodyBuilder2_output.pdb")
          (List.range ab.atoms.length) 0).1
        ++ ((if (saveLoopGo ab oracle (fn.getD "ABodyBuilder2_output.pdb")
              (List.range ab.atoms.length) 0).2.2 then []
            else [Ev.warn ("FAILED TO REFINE " ++ fn.getD "ABodyBuilder2_output.pdb"
              ++ ".\nSaving anyways.")])
          ++ [Ev.bfactors (fn.getD "ABodyBuilder2_output.pdb") ab.meanErrors [header]]))) := by
  rw [Antibody.save]
  simp [List.isEmpty_iff, h]

lemma saveLoopGo_shape (ab : Antibody) (oracle : ℕ → Bool) (f : String) (i : ℕ)
    (rest : List ℕ) (k : ℕ) :
    ∃ evs, (saveLoopGo ab oracle f (i :: rest) k).1 =
      (ab.save_single_unrefined f (ab.ranking.indexOf i)).2 :: evs := by
  simp only [saveLoopGo]
  split_ifs <;> exact ⟨_, rfl⟩

lemma save_getLast (ab : Antibody) (oracle : ℕ → Bool) (fn : Option String)
    (h : ab.atoms ≠ []) :
    ((ab.save oracle fn).2.trace).getLast? =
      some (Ev.bfactors (fn.getD "ABodyBuilder2_output.pdb") ab.meanErrors [header]) := by
  rw [save_eq ab oracle fn h]
  dsimp only [SaveOutcome.trace]
  rw [← List.append_assoc]
  exact List.getLast?_concat _

lemma save_head (ab : Antibody) (oracle : ℕ → Bool) (fn : Option String)
    (h : ab.atoms ≠ []) :
    ((ab.save oracle fn).2.trace).head? =
      some (ab.save_single_unrefined (fn.getD "ABodyBuilder2_output.pdb")
        (ab.ranking.indexOf 0)).2 := by
  rw [save_eq ab oracle fn h]
  dsimp only [SaveOutcome.trace]
  obtain ⟨m, hm⟩ : ∃ m, ab.atoms.length = m + 1 := by
    cases hAtoms : ab.atoms with
    | nil => exact absurd hAtoms h
    | cons a l => exact ⟨l.length, by simp [hAtoms]⟩
  rw [hm, List.range_succ_eq_map]
  obtain ⟨evs, hevs⟩ := saveLoopGo_shape ab oracle (fn.getD "ABodyBuilder2_output.pdb")
    0 ((List.range m).map (· + 1)) 0
  rw [hevs]
  rfl

lemma getD_of_isSome {α : Type} (o : Option α) (d : α) (h : o.isSome = true) :
    o = some (o.getD d) := by
  cases o with
  | none => simp at h
  | some a => rfl

/-- C4: for every `Antibody` built by the constructor (any `M ≥ 1` member
predictions), the `ranking` field is a permutation of the member indices
`0 .. M-1` — no duplicates, no omissions — ordered ascending by each member's
mean per-residue error (`error_estimates.mean(-1)`). -/
theorem C4_ranking_sorted_permutation
    (fat : List (List Vec3) → List Mat3 × List Vec3) (ns : NumberedSeqs)
    (preds : List (MemberAtoms × ℕ)) (ab : Antibody)
    (h : Antibody.init fat ns preds = some ab) :
    ab.ranking.Perm (List.range ab.atoms.length) ∧
    List.Pairwise (fun i j => (ab.error_estimates.map rowMean).getD i 0 ≤
      (ab.error_estimates.map rowMean).getD j 0) ab.ranking := by
  obtain ⟨-, -, -, hrank, hlen, -⟩ := Antibody.init_spec h
  constructor
  · rw [hrank]
    have hp := argsort_perm (ab.error_estimates.map rowMean)
    simpa [hlen] using hp
  · rw [hrank]
    exact argsort_pairwise_le _

/-- C4 witness: the permutation/sortedness property evaluated on a concrete
two-member ensemble. -/
theorem C4_witness :
    twinAb.ranking.Perm (List.range twinAb.atoms.length) ∧
    List.Pairwise (fun i j => (twinAb.error_estimates.map rowMean).getD i 0 ≤
      (twinAb.error_estimates.map rowMean).getD j 0) twinAb.ranking :=
  C4_ranking_sorted_permutation idFat chainNs [(twinMember, 0), (twinMember, 1)] twinAb
    (getD_of_isSome _ default rfl)

/-- C6: if the sequence mapping is missing a required chain key ("H" or "L"),
`predict` reports a fatal input error and no collaborator event (numbering,
encoding, or model inference) is emitted. -/
theorem C6_missing_chain_fatal_before_collaborators (m : ABodyBuilder2)
    (genc : List (String × String) → ℕ)
    (fat : List (List Vec3) → List Mat3 × List Vec3)
    (sd : List (String × String))
    (h : ¬ ("H" ∈ sd.map Prod.fst ∧ "L" ∈ sd.map Prod.fst)) :
    (m.predict genc fat sd).1 = Except.error "Missing required chain" ∧
    (m.predict genc fat sd).2 = [] := by
  simp only [ABodyBuilder2.predict, number_sequences]
  rw [if_neg h]
  exact ⟨rfl, rfl⟩

/-- C6 witness: a mapping with the heavy chain only. -/
theorem C6_witness :
    ((ABodyBuilder2.mk []).predict (fun _ => 0) idFat [("H", "EVQ")]).1 =
      Except.error "Missing required chain" ∧
    ((ABodyBuilder2.mk []).predict (fun _ => 0) idFat [("H", "EVQ")]).2 = [] :=
  C6_missing_chain_fatal_before_collaborators (ABodyBuilder2.mk []) (fun _ => 0) idFat
    [("H", "EVQ")] (by decide)

/-- C9: the derived ensemble fields are computed once at construction and the
output operations are observationally pure on the aggregate: `save`,
`save_all` and `save_single_unrefined` all return `self` unchanged, so
repeated saves always see the identical transforms, aligned traces, error
estimates and ranking. -/
theorem C9_derived_fields_immutable (ab : Antibody) (oracle : ℕ → Bool)
    (dn fn : Option String) (f : String) (idx : ℕ) :
    (ab.save oracle fn).1 = ab ∧
    (ab.save_all oracle dn fn).1 = ab ∧
    (ab.save_single_unrefined f idx).1 = ab ∧
    ((ab.save oracle fn).1.R = ab.R ∧ (ab.save oracle fn).1.t = ab.t ∧
      (ab.save oracle fn).1.aligned_traces = ab.aligned_traces ∧
      (ab.save oracle fn).1.error_estimates = ab.error_estimates ∧
      (ab.save oracle fn).1.ranking = ab.ranking) := by
  have hs : (ab.save oracle fn).1 = ab := by
    rw [Antibody.save]
    split_ifs <;> rfl
  exact ⟨hs, rfl, rfl, by rw [hs], by rw [hs], by rw [hs], by rw [hs], by rw [hs]⟩

/-- C10: on an empty member list the retry loop of `save` never runs and the
call fails by reading the never-assigned `success` flag (Python
`UnboundLocalError`), before any file is written or annotated (the event
trace at the raise is empty). -/
theorem C10_empty_ensemble_unbound_flag (ab : Antibody) (oracle : ℕ → Bool)
    (fn : Option String) (h : ab.atoms = []) :
    (ab.save oracle fn).2 = SaveOutcome.unboundLocal [] := by
  rw [Antibody.save]
  simp [h]

/-- C10 witness: the all-empty aggregate record. -/
theorem C10_witness :
    (emptyAb.save (fun _ => false) none).2 = SaveOutcome.unboundLocal [] :=
  C10_empty_ensemble_unbound_flag emptyAb (fun _ => false) none rfl

/-- C1 counterexample: with a two-member ensemble and an always-failing
refinement collaborator, `save` invokes the collaborator four times — not at
most twice — and writes structures of two different members (first member 0
twice, then member 1 twice): the orchestrator does fall through past the
first candidate. -/
theorem C1_counterexample :
    countRefines ((twinAb.save (fun _ => false) none).2.trace) = 4 ∧
    ¬ countRefines ((twinAb.save (fun _ => false) none).2.trace) ≤ 2 ∧
    writeIndices ((twinAb.save (fun _ => false) none).2.trace) = [0, 0, 1, 1] := by
  norm_num [twinAb, Antibody.init, idFat, twinMember, chainNs, trace_of, alignMember,
    meanAcross, argsort, rankLe, rowMean, sqnorm, vsub, vadd, vsmul, rowMul, mId, vzero,
    Antibody.save, saveLoopGo, SaveOutcome.trace, Antibody.save_single_unrefined,
    Antibody.meanErrors, colMeans, countRefines, writeIndices, Ev.isRefine,
    List.indexOf, List.findIdx, List.findIdx.go, List.range_succ,
    List.insertionSort, List.orderedInsert, List.zipWith, List.zip, List.replicate,
    List.foldr, List.headD, List.getD, List.head?, List.zipWithAll, List.filter_cons,
    List.filterMap_cons]
  decide

/-- C1 amended: per `save` call the refinement collaborator is invoked at most
twice per ensemble member — up to `2·M` times in total, not at most twice —
and every structure written during the retry loop is the member selected by
`ranking.index(i)` for some loop index `i < M`: on repeated failure the
orchestrator advances through further candidates instead of stopping after
the top one. -/
theorem C1_amended_retry_bound (ab : Antibody) (oracle : ℕ → Bool)
    (fn : Option String) (h : ab.atoms ≠ []) :
    (ab.save oracle fn).2.isOk = true ∧
    countRefines ((ab.save oracle fn).2.trace) ≤ 2 * ab.atoms.length ∧
    ∀ x ∈ writeIndices ((ab.save oracle fn).2.trace),
      ∃ i < ab.atoms.length, x = ab.ranking.indexOf i := by
  rw [save_eq ab oracle fn h]
  dsimp only [SaveOutcome.isOk, SaveOutcome.trace]
  refine ⟨rfl, ?_, ?_⟩
  · rw [countRefines_append, countRefines_append]
    have h1 := saveLoopGo_count ab oracle (fn.getD "ABodyBuilder2_output.pdb")
      (List.range ab.atoms.length) 0
    rw [List.length_range] at h1
    have hb : countRefines [Ev.bfactors (fn.getD "ABodyBuilder2_output.pdb")
        ab.meanErrors [header]] = 0 := by
      simp [countRefines, Ev.isRefine]
    have hw : ∀ b : Bool, countRefines (if b then [] else [Ev.warn ("FAILED TO REFINE " ++
        fn.getD "ABodyBuilder2_output.pdb" ++ ".\nSaving anyways.")]) = 0 := by
      intro b
      cases b <;> simp [countRefines, Ev.isRefine]
    rw [hb, hw]
    omega
  · intro x hx
    rw [writeIndices_append, writeIndices_append] at hx
    have hb : writeIndices [Ev.bfactors (fn.getD "ABodyBuilder2_output.pdb")
        ab.meanErrors [header]] = [] := by
      simp [writeIndices]
    have hw : ∀ b : Bool, writeIndices (if b then [] else [Ev.warn ("FAILED TO REFINE " ++
        fn.getD "ABodyBuilder2_output.pdb" ++ ".\nSaving anyways.")]) = [] := by
      intro b
      cases b <;> simp [writeIndices]
    rw [hb, hw] at hx
    simp only [List.append_nil] at hx
    obtain ⟨i, hi, hix⟩ := saveLoopGo_writes ab oracle (fn.getD "ABodyBuilder2_output.pdb")
      (List.range ab.atoms.length) 0 x hx
    exact ⟨i, List.mem_range.mp hi, hix⟩

/-- C1 amended witness: the bound evaluated on the concrete two-member
ensemble with an always-failing collaborator. -/
theorem C1_amended_witness :
    (twinAb.save (fun _ => false) none).2.isOk = true ∧
    countRefines ((twinAb.save (fun _ => false) none).2.trace) ≤ 2 * twinAb.atoms.length ∧
    ∀ x ∈ writeIndices ((twinAb.save (fun _ => false) none).2.trace),
      ∃ i < twinAb.atoms.length, x = twinAb.ranking.indexOf i :=
  C1_amended_retry_bound twinAb (fun _ => false) none (by decide)

/-- C2 counterexample: for the three-member ensemble with ranking `[1, 2, 0]`
(a 3-cycle), the first structure written by `save` is member
`ranking.index(0) = 2`, not the top-ranked member `ranking[0] = 1`. -/
theorem C2_counterexample :
    triAb.ranking = [1, 2, 0] ∧
    (writeIndices ((triAb.save (fun _ => true) none).2.trace)).head? = some 2 ∧
    triAb.ranking.head? = some 1 ∧
    (writeIndices ((triAb.save (fun _ => true) none).2.trace)).head? ≠ triAb.ranking.head? := by
  norm_num [triAb, Antibody.init, idFat, triMember, chainNs, trace_of, alignMember,
    meanAcross, argsort, rankLe, rowMean, sqnorm, vsub, vadd, vsmul, rowMul, mId, vzero,
    Antibody.save, saveLoopGo, SaveOutcome.trace, Antibody.save_single_unrefined,
    Antibody.meanErrors, colMeans, writeIndices, List.indexOf, List.findIdx,
    List.findIdx.go, List.range_succ, List.insertionSort, List.orderedInsert,
    List.zipWith, List.zip, List.replicate, List.foldr, List.headD, List.getD,
    List.head?, List.zipWithAll, List.filterMap_cons]
  decide

/-- C2 amended: the first structure written (before any refinement attempt) is
the de-transformed full atom set of the member whose index is
`ranking.index(0)` — the rank position of member 0, i.e. the inverse ranking
permutation applied to 0 — which coincides with the top-ranked member
`ranking[0]` only when the ranking permutation fixes that relation. -/
theorem C2_amended_first_write (ab : Antibody) (oracle : ℕ → Bool)
    (fn : Option String) (h : ab.atoms ≠ []) :
    ((ab.save oracle fn).2.trace).head? =
      some (Ev.write (fn.getD "ABodyBuilder2_output.pdb") (ab.ranking.indexOf 0)
        ((ab.atoms.getD (ab.ranking.indexOf 0) []).map (fun res => res.map (fun p =>
          rowMul (vsub p (ab.t.getD (ab.ranking.indexOf 0) vzero))
            (ab.R.getD (ab.ranking.indexOf 0) mzero))))) := by
  rw [save_head ab oracle fn h]
  rfl

/-- C2 amended witness: the first-write shape evaluated on the three-member
ensemble. -/
theorem C2_amended_witness :
    ((triAb.save (fun _ => true) none).2.trace).head? =
      some (Ev.write ((none : Option String).getD "ABodyBuilder2_output.pdb")
        (triAb.ranking.indexOf 0)
        ((triAb.atoms.getD (triAb.ranking.indexOf 0) []).map (fun res => res.map (fun p =>
          rowMul (vsub p (triAb.t.getD (triAb.ranking.indexOf 0) vzero))
            (triAb.R.getD (triAb.ranking.indexOf 0) mzero))))) :=
  C2_amended_first_write triAb (fun _ => true) none (by decide)

/-- C3: when the refinement collaborator fails on every invocation, `save`
still completes without raising: an unrefined structure was written to the
target path (the very first event), the failure warning is emitted, and the
per-atom confidence annotation of the target file is the final action —
refinement failure is never propagated. -/
theorem C3_total_refinement_failure_absorbed (ab : Antibody) (oracle : ℕ → Bool)
    (fn : Option String) (h : ab.atoms ≠ []) (hf : ∀ k, oracle k = false) :
    (ab.save oracle fn).2.isOk = true ∧
    ((ab.save oracle fn).2.trace).head? =
      some (ab.save_single_unrefined (fn.getD "ABodyBuilder2_output.pdb")
        (ab.ranking.indexOf 0)).2 ∧
    Ev.warn ("FAILED TO REFINE " ++ fn.getD "ABodyBuilder2_output.pdb" ++ ".\nSaving anyways.")
      ∈ (ab.save oracle fn).2.trace ∧
    ((ab.save oracle fn).2.trace).getLast? =
      some (Ev.bfactors (fn.getD "ABodyBuilder2_output.pdb") ab.meanErrors [header]) := by
  refine ⟨?_, save_head ab oracle fn h, ?_, save_getLast ab oracle fn h⟩
  · rw [save_eq ab oracle fn h]
    rfl
  · rw [save_eq ab oracle fn h]
    dsimp only [SaveOutcome.trace]
    rw [saveLoopGo_allFalse ab oracle (fn.getD "ABodyBuilder2_output.pdb") hf
      (List.range ab.atoms.length) 0]
    simp

/-- C3 witness: the always-failing collaborator on the concrete two-member
ensemble. -/
theorem C3_witness :
    (twinAb.save (fun _ => false) none).2.isOk = true ∧
    ((twinAb.save (fun _ => false) none).2.trace).head? =
      some (twinAb.save_single_unrefined ((none : Option String).getD "ABodyBuilder2_output.pdb")
        (twinAb.ranking.indexOf 0)).2 ∧
    Ev.warn ("FAILED TO REFINE " ++ (none : Option String).getD "ABodyBuilder2_output.pdb"
      ++ ".\nSaving anyways.") ∈ (twinAb.save (fun _ => false) none).2.trace ∧
    ((twinAb.save (fun _ => false) none).2.trace).getLast? =
      some (Ev.bfactors ((none : Option String).getD "ABodyBuilder2_output.pdb")
        twinAb.meanErrors [header]) :=
  C3_total_refinement_failure_absorbed twinAb (fun _ => false) none (by decide) (fun _ => rfl)

lemma filterMap_some_eq_map {α β : Type} (f : α → β) (g : α → Option β) (l : List α)
    (hg : ∀ a, g a = some (f a)) : l.filterMap g = l.map f := by
  induction l with
  | nil => rfl
  | cons a l ih => simp [List.filterMap_cons, hg, ih]

/-- C7: in full-directory mode with `M` members, exactly `M` unrefined
structure files are written — member `i` to the file labeled with `i`'s rank
position, all labels distinct — one auxiliary file holds the per-residue mean
error array, the refinement collaborator is invoked exactly once (on the
rank-0 file into the final filename), and the final file is annotated with
the per-residue confidence as the last action regardless of the refinement
outcome. -/
theorem C7_save_all_layout
    (fat : List (List Vec3) → List Mat3 × List Vec3) (ns : NumberedSeqs)
    (preds : List (MemberAtoms × ℕ)) (ab : Antibody) (oracle : ℕ → Bool)
    (dn fn : Option String) (h : Antibody.init fat ns preds = some ab) :
    writePairs ((ab.save_all oracle dn fn).2) =
      (List.range ab.atoms.length).map (fun i =>
        (dn.getD "ABodyBuilder2_output" ++ "/rank" ++ toString (ab.ranking.indexOf i)
          ++ "_unrefined.pdb", i)) ∧
    (∀ i j, i < ab.atoms.length → j < ab.atoms.length →
      ab.ranking.indexOf i = ab.ranking.indexOf j → i = j) ∧
    countRefines ((ab.save_all oracle dn fn).2) = 1 ∧
    Ev.refineCall (dn.getD "ABodyBuilder2_output" ++ "/rank0_unrefined.pdb")
      (dn.getD "ABodyBuilder2_output" ++ "/" ++ fn.getD "final_model.pdb") (oracle 0)
      ∈ (ab.save_all oracle dn fn).2 ∧
    Ev.npsave (dn.getD "ABodyBuilder2_output" ++ "/error_estimates") ab.meanErrors
      ∈ (ab.save_all oracle dn fn).2 ∧
    ((ab.save_all oracle dn fn).2).getLast? =
      some (Ev.bfactors (dn.getD "ABodyBuilder2_output" ++ "/" ++ fn.getD "final_model.pdb")
        ab.meanErrors [header]) := by
  refine ⟨?_, ?_, ?_, ?_, ?_, ?_⟩
  · simp only [Antibody.save_all, writePairs, Antibody.save_single_unrefined,
      List.filterMap_cons, List.filterMap_append, List.filterMap_map, Function.comp]
    simp
    exact filterMap_some_eq_map _ _ _ (fun a => rfl)
  · intro i j hi hj heq
    obtain ⟨-, -, -, hrank, hlen, -⟩ := Antibody.init_spec h
    have hperm : ab.ranking.Perm (List.range ab.atoms.length) := by
      rw [hrank]
      simpa [hlen] using argsort_perm (ab.error_estimates.map rowMean)
    have himem : i ∈ ab.ranking := hperm.mem_iff.mpr (List.mem_range.mpr hi)
    have hjmem : j ∈ ab.ranking := hperm.mem_iff.mpr (List.mem_range.mpr hj)
    exact (List.indexOf_inj himem hjmem).mp heq
  · simp [Antibody.save_all, countRefines, Ev.isRefine, List.filter_append,
      List.filter_cons, List.filter_map, Function.comp, Antibody.save_single_unrefined]
  · simp [Antibody.save_all]
  · simp [Antibody.save_all]
  · have hshape : (ab.save_all oracle dn fn).2 =
        (Ev.mkdirs (dn.getD "ABodyBuilder2_output") ::
          ((List.range ab.atoms.length).map (fun i => (ab.save_single_unrefined
            ((dn.getD "ABodyBuilder2_output") ++ "/rank" ++ toString (ab.ranking.indexOf i)
              ++ "_unrefined.pdb") i).2) ++
           [Ev.npsave ((dn.getD "ABodyBuilder2_output") ++ "/error_estimates") ab.meanErrors,
            Ev.refineCall ((dn.getD "ABodyBuilder2_output") ++ "/rank0_unrefined.pdb")
              ((dn.getD "ABodyBuilder2_output") ++ "/" ++ fn.getD "final_model.pdb")
              (oracle 0)]) ++
          [Ev.bfactors ((dn.getD "ABodyBuilder2_output") ++ "/" ++ fn.getD "final_model.pdb")
            ab.meanErrors [header]]) := by
      simp [Antibody.save_all]
    rw [hshape]
    exact List.getLast?_concat _

/-- C7 witness: the layout evaluated on the concrete two-member ensemble with
default directory and filename. -/
theorem C7_witness :
    writePairs ((twinAb.save_all (fun _ => false) none none).2) =
      (List.range twinAb.atoms.length).map (fun i =>
        ((none : Option String).getD "ABodyBuilder2_output" ++ "/rank"
          ++ toString (twinAb.ranking.indexOf i) ++ "_unrefined.pdb", i)) ∧
    (∀ i j, i < twinAb.atoms.length → j < twinAb.atoms.length →
      twinAb.ranking.indexOf i = twinAb.ranking.indexOf j → i = j) ∧
    countRefines ((twinAb.save_all (fun _ => false) none none).2) = 1 ∧
    Ev.refineCall ((none : Option String).getD "ABodyBuilder2_output" ++ "/rank0_unrefined.pdb")
      ((none : Option String).getD "ABodyBuilder2_output" ++ "/"
        ++ (none : Option String).getD "final_model.pdb") ((fun _ => false) 0)
      ∈ (twinAb.save_all (fun _ => false) none none).2 ∧
    Ev.npsave ((none : Option String).getD "ABodyBuilder2_output" ++ "/error_estimates")
      twinAb.meanErrors ∈ (twinAb.save_all (fun _ => false) none none).2 ∧
    ((twinAb.save_all (fun _ => false) none none).2).getLast? =
      some (Ev.bfactors ((none : Option String).getD "ABodyBuilder2_output" ++ "/"
        ++ (none : Option String).getD "final_model.pdb") twinAb.meanErrors [header]) :=
  C7_save_all_layout idFat chainNs [(twinMember, 0), (twinMember, 1)] twinAb
    (fun _ => false) none none (getD_of_isSome _ default rfl)

set_option maxHeartbeats 1600000 in
/-- C8 counterexample: two members whose backbone traces coincide but whose
second atoms differ.  The code's `error_estimates` is zero everywhere (it is
computed from the aligned backbone traces, line 34: `x[:, 0]`), while the
error computed from the full atom set as the claim describes is nonzero — so
`error_estimates` is not the full-atom-set quantity the claim states. -/
theorem C8_counterexample :
    c8Ab.error_estimates = [[0], [0]] ∧
    specFullAtomError c8Ab.atoms c8Ab.R c8Ab.t = [[1/4], [1/4]] ∧
    c8Ab.error_estimates ≠ specFullAtomError c8Ab.atoms c8Ab.R c8Ab.t := by
  norm_num [c8Ab, Antibody.init, idFat, chainNs, trace_of, alignMember, specFullAtomError,
    meanAcross, argsort, rankLe, rowMean, sqnorm, vsub, vadd, vsmul, rowMul, mId, vzero,
    mzero, List.insertionSort, List.orderedInsert, List.zipWith, List.zip, List.replicate,
    List.foldr, List.headD, List.getD, List.head?, List.zipWithAll, List.range_succ]

/-- C8 amended: the error estimate is the per-residue, per-member squared
Euclidean distance of each member's aligned *backbone trace* (the
representative atom 0 of each residue — the same trace used for fitting, not
the full atom set) from the cross-member mean trace position; the confidence
annotation applied to the output file is the pointwise square root of the
cross-member mean of this error. -/
theorem C8_amended_trace_error
    (fat : List (List Vec3) → List Mat3 × List Vec3) (ns : NumberedSeqs)
    (preds : List (MemberAtoms × ℕ)) (ab : Antibody) (oracle : ℕ → Bool)
    (fn : Option String) (h : Antibody.init fat ns preds = some ab) :
    ab.aligned_traces = List.zipWith (fun trtm Rm => alignMember trtm.1 trtm.2 Rm)
      ((ab.atoms.map trace_of).zip ab.t) ab.R ∧
    ab.error_estimates = ab.aligned_traces.map (fun row =>
      List.zipWith (fun p q => sqnorm (vsub p q)) row (meanAcross ab.aligned_traces)) ∧
    ((ab.save oracle fn).2.trace).getLast? =
      some (Ev.bfactors (fn.getD "ABodyBuilder2_output.pdb")
        (colMeans ab.error_estimates) [header]) := by
  obtain ⟨-, hal, herr, -, -, hne⟩ := Antibody.init_spec h
  exact ⟨hal, herr, save_getLast ab oracle fn hne⟩

/-- C8 amended witness: the trace-based error shape evaluated on the concrete
two-member ensemble. -/
theorem C8_amended_witness :
    twinAb.aligned_traces = List.zipWith (fun trtm Rm => alignMember trtm.1 trtm.2 Rm)
      ((twinAb.atoms.map trace_of).zip twinAb.t) twinAb.R ∧
    twinAb.error_estimates = twinAb.aligned_traces.map (fun row =>
      List.zipWith (fun p q => sqnorm (vsub p q)) row (meanAcross twinAb.aligned_traces)) ∧
    ((twinAb.save (fun _ => false) none).2.trace).getLast? =
      some (Ev.bfactors ((none : Option String).getD "ABodyBuilder2_output.pdb")
        (colMeans twinAb.error_estimates) [header]) :=
  C8_amended_trace_error idFat chainNs [(twinMember, 0), (twinMember, 1)] twinAb
    (fun _ => false) none (getD_of_isSome _ default rfl)
